import Mathlib

/-!
# Verification of `app/services.py`

A shallow embedding of the service layer: the two payload validators
(`validate_candidate_payload`, `validate_job_payload`) and the match scorer
(`calculate_match_score`), together with theorems settling the spec claims.

Modelling conventions:
* Python payload values are modelled by the inductive `PyVal`; a decoded
  request body is an association list `Payload` and `dict.get` is `pget`
  (absent keys and explicit `None` both fail the `isinstance` checks, as in
  Python).
* Strings are handled through their character lists so that everything is
  kernel-computable: `str.strip()` is `pyStrip` (leading and trailing
  whitespace removed), `s.lower()` is `pyLower`, and `"@" in email` is
  `pyHasAt email` (a one-character needle, so substring containment is
  character membership).
* A raised `ValidationError(errors)` is `Except.error errors`, carrying the
  field-to-message mapping as a list in insertion order.
* The scorer's unguarded `metadata["skill_weights"]["base"]` lookup is an
  `Except.error ()` (an uncaught `KeyError`/`TypeError` in Python).
* The score arithmetic `int((matched_count / len(job_skills)) * 100)` and
  `int((matched_count / len(job_skills)) * 100 * 1.2)` is Python float
  (IEEE-754 binary64) arithmetic.  It is modelled bit-exactly: `fl64Frac`
  rounds an exact fraction to the nearest binary64 value (ties to even) and
  returns that value as an exact fraction, and `pyScoreBase` /
  `pyScorePremium` chain one such rounding per float operation — `m / n`,
  `· * 100`, and for the premium path `· * 1.2` with the float literal
  `1.2` itself being `fl64Frac 6 5` — before the `int(...)` truncation
  (the floor, as every value here is nonnegative).  The model carries an
  unbounded exponent, which agrees with binary64 wherever no overflow or
  subnormal rounding occurs; both are impossible for any list lengths and
  counts representable in CPython, whose quotients lie far inside the
  binary64 exponent range.
-/

/-- Python values as they occur in decoded JSON payloads and in the
`metadata` attribute. -/
inductive PyVal where
  | vstr : String → PyVal
  | vint : Int → PyVal
  | vlist : List PyVal → PyVal
  | vdict : List (String × PyVal) → PyVal
  | vnone : PyVal

/-- Python's `str.strip()`: remove leading and trailing whitespace. -/
def pyStrip (s : String) : String :=
  ⟨((s.data.dropWhile Char.isWhitespace).reverse.dropWhile
      Char.isWhitespace).reverse⟩

/-- Python's `str.lower()`, character by character. -/
def pyLower (s : String) : String :=
  ⟨s.data.map Char.toLower⟩

/-- Python's `"@" in email`: the needle is a single character, so substring
containment is membership of that character. -/
def pyHasAt (s : String) : Bool :=
  s.data.contains '@'

/-- A decoded request body: a Python dict from field names to values. -/
def Payload := List (String × PyVal)

/-- `payload.get(key)`: `some v` when the key is mapped to `v`, `none` when
absent (Python's `dict.get` default of `None` fails every `isinstance` check
exactly as an absent key does). -/
def pget (p : Payload) (k : String) : Option PyVal :=
  (p.find? (fun kv => kv.1 == k)).map (fun kv => kv.2)

/-- `all(isinstance(s, str) for s in l)`, returning the extracted strings. -/
def asStrings : List PyVal → Option (List String)
  | [] => some []
  | PyVal.vstr s :: rest => (asStrings rest).map (fun ss => s :: ss)
  | _ :: _ => none

/-- The `name` check of `validate_candidate_payload`:
`isinstance(name, str) and name.strip()` (a non-empty string after
trimming); returns the untrimmed string when valid. -/
def candName? : Option PyVal → Option String
  | some (PyVal.vstr s) => if (pyStrip s).data.isEmpty then none else some s
  | _ => none

/-- The `email` check: `isinstance(email, str) and "@" in email`. -/
def candEmail? : Option PyVal → Option String
  | some (PyVal.vstr s) => if pyHasAt s then some s else none
  | _ => none

/-- The `skills` check: `isinstance(skills, list) and
all(isinstance(s, str) for s in skills)` (empty strings permitted). -/
def candSkills? : Option PyVal → Option (List String)
  | some (PyVal.vlist l) => asStrings l
  | _ => none

/-- The `years_experience` check: `isinstance(years_experience, int) and
years_experience >= 0`. -/
def candYears? : Option PyVal → Option Int
  | some (PyVal.vint y) => if 0 ≤ y then some y else none
  | _ => none

/-- The exact field names of the candidate checks that fail, in source
order: the `errors` dict of `validate_candidate_payload` maps these (and
only these) fields. -/
def candInvalidFields (p : Payload) : List String :=
  (if (candName? (pget p "name")).isNone then ["name"] else []) ++
  (if (candEmail? (pget p "email")).isNone then ["email"] else []) ++
  (if (candSkills? (pget p "skills")).isNone then ["skills"] else []) ++
  (if (candYears? (pget p "years_experience")).isNone
    then ["years_experience"] else [])

/-- The `errors` dict built by `validate_candidate_payload`: one entry per
failed check, in source order, with the exact messages. -/
def candErrors (p : Payload) : List (String × String) :=
  (if (candName? (pget p "name")).isNone
    then [("name", "name must be a non-empty string")] else []) ++
  (if (candEmail? (pget p "email")).isNone
    then [("email", "email must be a valid email-like string")] else []) ++
  (if (candSkills? (pget p "skills")).isNone
    then [("skills", "skills must be a list of strings")] else []) ++
  (if (candYears? (pget p "years_experience")).isNone
    then [("years_experience", "years_experience must be a non-negative integer")]
    else [])

/-- `validate_candidate_payload` (services.py lines 23-46): runs all four
field checks, collects every failure into the `errors` mapping and raises
`ValidationError(errors)` if any check failed (equivalently: unless all
four checks succeeded); otherwise returns the trimmed name, trimmed email,
list of trimmed skills and the integer years_experience. -/
def validate_candidate_payload (p : Payload) :
    Except (List (String × String)) (String × String × List String × Int) :=
  match candName? (pget p "name"), candEmail? (pget p "email"),
      candSkills? (pget p "skills"), candYears? (pget p "years_experience") with
  | some n, some e, some sk, some y =>
      Except.ok (pyStrip n, pyStrip e, sk.map pyStrip, y)
  | _, _, _, _ => Except.error (candErrors p)

/-- The `title` / `location` check of `validate_job_payload`: a non-empty
string after trimming (same shape as the candidate `name` check). -/
def jobText? : Option PyVal → Option String
  | some (PyVal.vstr s) => if (pyStrip s).data.isEmpty then none else some s
  | _ => none

/-- The `skills_required` check: `isinstance(skills_required, list) and
all(isinstance(s, str) and s.strip() for s in skills_required)` — a list of
strings each non-empty after trimming. -/
def jobSkills? : Option PyVal → Option (List String)
  | some (PyVal.vlist l) =>
      match asStrings l with
      | some ss =>
          if ss.all (fun s => !(pyStrip s).data.isEmpty) then some ss else none
      | none => none
  | _ => none

/-- The field names of the job checks that fail, in source order. -/
def jobInvalidFields (p : Payload) : List String :=
  (if (jobText? (pget p "title")).isNone then ["title"] else []) ++
  (if (jobText? (pget p "location")).isNone then ["location"] else []) ++
  (if (jobSkills? (pget p "skills_required")).isNone
    then ["skills_required"] else [])

/-- The `errors` dict built by `validate_job_payload`, in source order. -/
def jobErrors (p : Payload) : List (String × String) :=
  (if (jobText? (pget p "title")).isNone
    then [("title", "title must be a non-empty string")] else []) ++
  (if (jobText? (pget p "location")).isNone
    then [("location", "location must be a non-empty string")] else []) ++
  (if (jobSkills? (pget p "skills_required")).isNone
    then [("skills_required", "skills_required must be a list of non-empty strings")]
    else [])

/-- `validate_job_payload` (services.py lines 49-71): same
collect-all-errors-then-raise discipline as the candidate validator;
on success returns the trimmed title, trimmed location and list of trimmed
required skills. -/
def validate_job_payload (p : Payload) :
    Except (List (String × String)) (String × String × List String) :=
  match jobText? (pget p "title"), jobText? (pget p "location"),
      jobSkills? (pget p "skills_required") with
  | some t, some l, some sk =>
      Except.ok (pyStrip t, pyStrip l, sk.map pyStrip)
  | _, _, _ => Except.error (jobErrors p)

example :
    validate_candidate_payload
      [("name", PyVal.vstr " Ann "), ("email", PyVal.vstr "a@b.com"),
       ("skills", PyVal.vlist [PyVal.vstr " Go ", PyVal.vstr " sql "]),
       ("years_experience", PyVal.vint 3)] =
    Except.ok ("Ann", "a@b.com", ["Go", "sql"], 3) := rfl

example :
    validate_job_payload [("title", PyVal.vstr "Eng")] =
    Except.error
      [("location", "location must be a non-empty string"),
       ("skills_required", "skills_required must be a list of non-empty strings")]
      := rfl

/-- Modelled from the spec (§3 Data Model): the `Candidate` record lives in
`app/repositories.py`, which is not part of the source under verification;
only the fields the service layer reads are modelled. `metadata` is `none`
when the attribute is absent or `None` (the `getattr(candidate, "metadata",
None)` default). -/
structure Candidate where
  name : String
  email : String
  skills : List String
  years_experience : Int
  metadata : Option PyVal

/-- Modelled from the spec (§3 Data Model): the `Job` record from
`app/repositories.py`, restricted to the fields the service layer reads. -/
structure Job where
  title : String
  location : String
  skills_required : List String

/-- Python truthiness of a value, as tested by `if metadata:`. -/
def truthy : PyVal → Bool
  | PyVal.vstr s => !s.data.isEmpty
  | PyVal.vint n => n != 0
  | PyVal.vlist l => !l.isEmpty
  | PyVal.vdict d => !d.isEmpty
  | PyVal.vnone => false

/-- Python subscription `v[k]` on a metadata value: a present dict key gives
its value; a missing key (`KeyError`) or a non-dict receiver (`TypeError`)
raises, here `none`. -/
def dictGet (v : PyVal) (k : String) : Option PyVal :=
  match v with
  | PyVal.vdict d => (d.find? (fun kv => kv.1 == k)).map (fun kv => kv.2)
  | _ => none

/-- The if/elif chain of `calculate_match_score` (services.py lines 88-102),
on the already-lowercased skill lists: the chain tests
`candidate_skills[0]`, then `len > 1 and candidate_skills[1]`, … up to
index 4, each branch adding 1 to the initial 0; only when all five
positional tests fail does the `else` loop scan `candidate_skills[5:]` and
count the members of `job_skills` there. -/
def matchedCount (cs js : List String) : Nat :=
  if (cs[0]?.any (fun s => js.contains s)) then 1
  else if (cs[1]?.any (fun s => js.contains s)) then 1
  else if (cs[2]?.any (fun s => js.contains s)) then 1
  else if (cs[3]?.any (fun s => js.contains s)) then 1
  else if (cs[4]?.any (fun s => js.contains s)) then 1
  else (cs.drop 5).countP (fun s => js.contains s)

/-- Whether the unguarded `metadata["skill_weights"]["base"]` read of
`calculate_match_score` (services.py lines 78-82) raises: the `metadata`
attribute is present and truthy, and either `skill_weights` is missing or
its value has no `base` key.  The fetched `base_multiplier` is bound and
never read again, so only the raise/no-raise outcome matters. -/
def metadataLookupFails (c : Candidate) : Bool :=
  match c.metadata with
  | none => false
  | some metadata =>
      if truthy metadata then
        match dictGet metadata "skill_weights" with
        | none => true
        | some skill_weights => (dictGet skill_weights "base").isNone
      else false

/-- Fuel-driven floor of the base-2 logarithm (the fuel only bounds the
recursion depth; `natLog2 n` calls it with ample fuel `n`). -/
def log2fuel : ℕ → ℕ → ℕ
  | 0, _ => 0
  | f + 1, n => if n < 2 then 0 else log2fuel f (n / 2) + 1

/-- `⌊log₂ n⌋` for `n ≥ 1` (and 0 at 0), kernel-computable. -/
def natLog2 (n : ℕ) : ℕ := log2fuel n n

/-- `⌊log₂ (a / b)⌋` for `a, b ≥ 1`.  For `a ≥ b` this is `⌊log₂ ⌊a/b⌋⌋`;
for `a < b` the first guess `-⌊log₂ ⌊b/a⌋⌋` is corrected downward by one
when `a / b` falls below it. -/
def floorLog2 (a b : ℕ) : Int :=
  if b ≤ a then (natLog2 (a / b) : Int)
  else
    let d := natLog2 (b / a)
    if b ≤ a * 2 ^ d then -(d : Int) else -(d : Int) - 1

/-- Round the fraction `p / q` to the nearest integer, ties to even — the
significand rounding of IEEE-754 round-to-nearest-even. -/
def rhe (p q : ℕ) : ℕ :=
  let u := p / q
  let r := p % q
  if 2 * r < q then u
  else if q < 2 * r then u + 1
  else if u % 2 = 0 then u else u + 1

/-- The IEEE-754 binary64 (round-to-nearest-even) value of `a / b`, as an
exact fraction: the significand `a / b · 2^(52-e)` (which lies in
`[2^52, 2^53)` for `e = ⌊log₂ (a/b)⌋`) is rounded ties-to-even and scaled
back.  The exponent is unbounded, which coincides with binary64 whenever
no overflow or subnormal rounding occurs — true of every value in this
program for list sizes representable in CPython. -/
def fl64Frac (a b : ℕ) : ℕ × ℕ :=
  if a = 0 ∨ b = 0 then (0, 1)
  else
    let e := floorLog2 a b
    if e ≤ 52 then
      let sh := (52 - e).toNat
      (rhe (a * 2 ^ sh) b, 2 ^ sh)
    else
      let sh := (e - 52).toNat
      (rhe a (b * 2 ^ sh) * 2 ^ sh, 1)

/-- `int((m / n) * 100)` in Python float arithmetic (services.py line
111): one binary64 rounding for the division, one for the product with
the (exactly representable) 100, then truncation — the floor, since the
value is nonnegative. -/
def pyScoreBase (m n : ℕ) : ℕ :=
  let q1 := fl64Frac m n
  let q2 := fl64Frac (q1.1 * 100) q1.2
  q2.1 / q2.2

/-- `int((m / n) * 100 * 1.2)` in Python float arithmetic (services.py
line 109): as in `pyScoreBase`, then one further rounding for the product
with the float literal `1.2` (the binary64 value of 6/5, i.e.
`fl64Frac 6 5 = 5404319552844595 / 2^52`), then truncation. -/
def pyScorePremium (m n : ℕ) : ℕ :=
  let q1 := fl64Frac m n
  let q2 := fl64Frac (q1.1 * 100) q1.2
  let t := fl64Frac 6 5
  let q3 := fl64Frac (q2.1 * t.1) (q2.2 * t.2)
  q3.1 / q3.2

example : fl64Frac 6 5 = (5404319552844595, 4503599627370496) := by decide

example : pyScoreBase 29 50 = 57 := by decide

example : pyScoreBase 29 100 = 28 := by decide

example : pyScoreBase 1 3 = 33 := by decide

example : pyScorePremium 3 8 = 45 := by decide

example : pyScorePremium 3 3 = 120 := by decide

example : pyScorePremium 997 1000 = 119 := by decide

/-- The pure score computation of `calculate_match_score` (services.py
lines 84-113) after the early returns and the metadata read: lowercase both
skill lists, run the if/elif counting chain, return 0 on no match, apply
the premium branch (`years_experience > 10 and matched_count >= 3`), and
clamp with `min(score, 100)`.  The float arithmetic inside `int(...)` is
the bit-exact binary64 model `pyScoreBase` / `pyScorePremium`. -/
def scoreFromCounts (c : Candidate) (j : Job) : Int :=
  let cs := c.skills.map pyLower
  let js := j.skills_required.map pyLower
  let m := matchedCount cs js
  if m = 0 then 0
  else
    let score : Nat :=
      if c.years_experience > 10 ∧ 3 ≤ m then
        pyScorePremium m js.length
      else
        pyScoreBase m js.length
    (min score 100 : Nat)

/-- `calculate_match_score` (services.py lines 74-113): return 0 when
either skill list is empty (before the metadata read); then perform the
unguarded metadata lookup, propagating its uncaught error; otherwise the
pure score. -/
def calculate_match_score (c : Candidate) (j : Job) : Except Unit Int :=
  if c.skills.isEmpty || j.skills_required.isEmpty then Except.ok 0
  else if metadataLookupFails c then Except.error ()
  else Except.ok (scoreFromCounts c j)

/-- The claim's reading of the counting step: the number of candidate
skills that, compared case-insensitively, appear anywhere in the job's
required-skills list (a full-list membership count over all candidate
skills). -/
def specMembershipCount (c : Candidate) (j : Job) : Nat :=
  (c.skills.map pyLower).countP
    (fun s => (j.skills_required.map pyLower).contains s)

/-- C9: `validate_candidate_payload` on
`{"name": " Ann ", "email": "a@b.com", "skills": [" Go ", " sql "],
"years_experience": 3}` returns `("Ann", "a@b.com", ["Go", "sql"], 3)`:
name, email and each skill are trimmed and years_experience passes
through. -/
theorem C9_validate_candidate_example :
    validate_candidate_payload
      [("name", PyVal.vstr " Ann "), ("email", PyVal.vstr "a@b.com"),
       ("skills", PyVal.vlist [PyVal.vstr " Go ", PyVal.vstr " sql "]),
       ("years_experience", PyVal.vint 3)] =
    Except.ok ("Ann", "a@b.com", ["Go", "sql"], 3) := rfl

/-- C2 (failing-input evaluation): for the candidate with skills
`["go","sql","rust"]` and 12 years of experience and a job requiring
exactly `["go","sql","rust"]`, the code returns 33, not the claimed 100:
the if/elif chain stops after the first matching skill, so
`matched_count = 1`, the premium branch (`matched_count >= 3`) does not
fire, and `int((1/3)*100) = 33`. -/
theorem C2_full_match_premium_returns_33 :
    calculate_match_score
      ⟨"x", "x@y", ["go", "sql", "rust"], 12, none⟩
      ⟨"t", "l", ["go", "sql", "rust"]⟩ = Except.ok 33 ∧ (33 : Int) ≠ 100 :=
  ⟨rfl, by decide⟩

/-- C1 (failing-input evaluation): for candidate skills `["go","sql"]` and
required skills `["go","sql"]`, the chain computes `matched_count = 1`
while the full-list case-insensitive membership count is 2, so the
positional code is not behaviorally equivalent to the full-list count; the
score returned is `int((1/2)*100) = 50` instead of 100. -/
theorem C1_positional_count_diverges :
    matchedCount
        ((⟨"x", "x@y", ["go", "sql"], 0, none⟩ : Candidate).skills.map pyLower)
        ((⟨"t", "l", ["go", "sql"]⟩ : Job).skills_required.map pyLower) = 1 ∧
    specMembershipCount ⟨"x", "x@y", ["go", "sql"], 0, none⟩
        ⟨"t", "l", ["go", "sql"]⟩ = 2 ∧
    calculate_match_score ⟨"x", "x@y", ["go", "sql"], 0, none⟩
        ⟨"t", "l", ["go", "sql"]⟩ = Except.ok 50 :=
  ⟨rfl, rfl, rfl⟩

/-- C5: if the candidate's skills list or the job's required-skills list is
empty, `calculate_match_score` returns 0 normally, whatever the other
fields (the early return precedes even the metadata read). -/
theorem C5_empty_skill_list_scores_zero (c : Candidate) (j : Job)
    (h : c.skills = [] ∨ j.skills_required = []) :
    calculate_match_score c j = Except.ok 0 := by
  unfold calculate_match_score
  rcases h with h | h <;> simp [h]

theorem C5_empty_skill_list_scores_zero_witness :
    ((⟨"n", "e", [], 99, some (PyVal.vdict [("x", PyVal.vnone)])⟩ :
        Candidate).skills = [] ∨
      (⟨"t", "l", ["go"]⟩ : Job).skills_required = []) ∧
    calculate_match_score
      ⟨"n", "e", [], 99, some (PyVal.vdict [("x", PyVal.vnone)])⟩
      ⟨"t", "l", ["go"]⟩ = Except.ok 0 :=
  ⟨Or.inl rfl, C5_empty_skill_list_scores_zero _ _ (Or.inl rfl)⟩

/-- C6: whenever `calculate_match_score` returns normally, the returned
integer lies in [0, 100]: the zero cases return 0, and the computed score
is a natural number clamped by `min(score, 100)`. -/
theorem C6_result_in_range (c : Candidate) (j : Job) (r : Int)
    (h : calculate_match_score c j = Except.ok r) : 0 ≤ r ∧ r ≤ 100 := by
  unfold calculate_match_score at h
  split at h
  · injection h with h2
    subst h2
    exact ⟨le_refl 0, by norm_num⟩
  · split at h
    · exact Except.noConfusion h
    · injection h with h2
      subst h2
      simp only [scoreFromCounts]
      split
      · exact ⟨le_refl 0, by norm_num⟩
      · exact ⟨Int.natCast_nonneg _, by exact_mod_cast min_le_right _ 100⟩

theorem C6_result_in_range_witness : (0 : Int) ≤ 33 ∧ (33 : Int) ≤ 100 :=
  C6_result_in_range ⟨"x", "x@y", ["go", "sql", "rust"], 12, none⟩
    ⟨"t", "l", ["go", "sql", "rust"]⟩ 33 rfl

/-- The score formula exactly as the claim words it: first
`round_down(matched_count / total * 100)`, then, in the premium case, the
already-rounded score is multiplied by 1.2 and truncated. -/
def specC3Score (c : Candidate) (j : Job) : Nat :=
  let m := matchedCount (c.skills.map pyLower) (j.skills_required.map pyLower)
  let base := m * 100 / j.skills_required.length
  if c.years_experience > 10 ∧ 3 ≤ m then base * 12 / 10 else base

/-- The amended score formula: `int((m/n) * 100)` — or, when the premium
applies, `int((m/n) * 100 * 1.2)`, the multiplier acting on the unrounded
product with a single truncation — evaluated in Python's binary64 float
arithmetic and clamped at 100. -/
def specAmendedScore (c : Candidate) (j : Job) : Nat :=
  let m := matchedCount (c.skills.map pyLower) (j.skills_required.map pyLower)
  let n := j.skills_required.length
  min
    (if c.years_experience > 10 ∧ 3 ≤ m then pyScorePremium m n
      else pyScoreBase m n) 100

lemma matchedCount_nil_left (js : List String) : matchedCount [] js = 0 := rfl

lemma matchedCount_nil_right (cs : List String) : matchedCount cs [] = 0 := by
  have hc : ∀ s : String, ([] : List String).contains s = false := fun _ => rfl
  have ho : ∀ o : Option String, (o.any fun _ => false) = false := by
    intro o
    cases o <;> simp
  unfold matchedCount
  simp [ho, hc, List.countP_eq_zero]

/-- C3 counterexample: with `matched_count = 3` of 8 required skills and 12
years of experience, the code computes `int((3/8)*100*1.2) = 45` in one
truncation, while the claim's reading — round down to 37 first, then
multiply by 1.2 and truncate — gives 44. -/
theorem C3_truncation_order_counterexample :
    calculate_match_score
      ⟨"x", "x@y", ["a", "b", "c", "d", "e", "go", "sql", "rust"], 12, none⟩
      ⟨"t", "l", ["go", "sql", "rust", "w1", "w2", "w3", "w4", "w5"]⟩ =
      Except.ok 45 ∧
    specC3Score
      ⟨"x", "x@y", ["a", "b", "c", "d", "e", "go", "sql", "rust"], 12, none⟩
      ⟨"t", "l", ["go", "sql", "rust", "w1", "w2", "w3", "w4", "w5"]⟩ = 44 ∧
    (45 : Int) ≠ 44 :=
  ⟨rfl, rfl, by decide⟩

/-- C3 as amended: on every normal return with at least one matched skill,
the result is `int(matched_count / total * 100)` without the premium, and
`int(matched_count / total * 100 * 1.2)` — a single truncation of the
product, not of the already-rounded score — when `years_experience > 10`
and `matched_count >= 3`, clamped at 100; the expressions are evaluated in
Python's binary64 float arithmetic, which can land one below the exact
`⌊m * 100 / n⌋` when a product rounds just under an integer (29 matched of
50 required gives 57, not 58). -/
theorem C3_score_formula (c : Candidate) (j : Job) (r : Int)
    (h : calculate_match_score c j = Except.ok r)
    (hm : matchedCount (c.skills.map pyLower) (j.skills_required.map pyLower)
      ≠ 0) :
    r = (specAmendedScore c j : Int) := by
  unfold calculate_match_score at h
  split at h
  · rename_i hempty
    exfalso
    have hor : c.skills.isEmpty = true ∨ j.skills_required.isEmpty = true := by
      simpa using hempty
    rcases hor with h1 | h1
    · rw [List.isEmpty_iff] at h1
      exact hm (by rw [h1]; exact matchedCount_nil_left _)
    · rw [List.isEmpty_iff] at h1
      exact hm (by rw [h1]; exact matchedCount_nil_right _)
  · split at h
    · exact Except.noConfusion h
    · injection h with h2
      subst h2
      simp only [scoreFromCounts, specAmendedScore, List.length_map]
      rw [if_neg hm]

theorem C3_score_formula_witness :
    (25 : Int) =
      (specAmendedScore ⟨"x", "x@y", ["go"], 2, none⟩
        ⟨"t", "l", ["go", "a", "b", "c"]⟩ : Int) :=
  C3_score_formula ⟨"x", "x@y", ["go"], 2, none⟩
    ⟨"t", "l", ["go", "a", "b", "c"]⟩ 25 rfl (by decide)

lemma calc_none_metadata (c : Candidate) (j : Job) :
    calculate_match_score
      ⟨c.name, c.email, c.skills, c.years_experience, none⟩ j =
    if c.skills.isEmpty || j.skills_required.isEmpty then Except.ok 0
    else Except.ok (scoreFromCounts c j) := rfl

/-- C7: with non-empty skill lists, a present and truthy `metadata` whose
dict lacks `skill_weights`, or whose `skill_weights` value lacks a `base`
key, makes `calculate_match_score` raise an uncaught lookup error; and on
every normal return the result is independent of the metadata (the fetched
`base_multiplier` is never used). -/
theorem C7_unguarded_metadata_lookup (c : Candidate) (j : Job) :
    (∀ md, c.skills ≠ [] → j.skills_required ≠ [] → c.metadata = some md →
      truthy md = true →
      (dictGet md "skill_weights" = none ∨
        ∃ sw, dictGet md "skill_weights" = some sw ∧
          dictGet sw "base" = none) →
      calculate_match_score c j = Except.error ()) ∧
    (∀ r, calculate_match_score c j = Except.ok r →
      calculate_match_score
        ⟨c.name, c.email, c.skills, c.years_experience, none⟩ j =
        Except.ok r) := by
  constructor
  · intro md h1 h2 hmd ht hlook
    have hA : (c.skills.isEmpty || j.skills_required.isEmpty) = false := by
      simp [h1, h2]
    have hB : metadataLookupFails c = true := by
      unfold metadataLookupFails
      rw [hmd]
      rcases hlook with hsw | ⟨sw, hsw, hb⟩
      · simp [ht, hsw]
      · simp [ht, hsw, hb]
    unfold calculate_match_score
    simp [hA, hB]
  · intro r h
    rw [calc_none_metadata]
    unfold calculate_match_score at h
    split at h
    · rename_i hempty
      rw [if_pos hempty]
      exact h
    · rename_i hempty
      split at h
      · exact Except.noConfusion h
      · rw [if_neg hempty]
        exact h

theorem C7_unguarded_metadata_lookup_witness :
    calculate_match_score
      ⟨"x", "x@y", ["go"], 0, some (PyVal.vdict [("other", PyVal.vint 1)])⟩
      ⟨"t", "l", ["go"]⟩ = Except.error () :=
  (C7_unguarded_metadata_lookup _ _).1 (PyVal.vdict [("other", PyVal.vint 1)])
    (by decide) (by decide) rfl rfl (Or.inl rfl)

lemma mem_take_five (cs : List String) (s : String) :
    s ∈ cs.take 5 ↔ ∃ k, k < 5 ∧ cs[k]? = some s := by
  constructor
  · intro hs
    have hex : ∃ k : ℕ, (cs.take 5)[k]? = some s := List.mem_iff_getElem?.mp hs
    obtain ⟨k, hk⟩ := hex
    rw [List.getElem?_take] at hk
    by_cases hk5 : k < 5
    · rw [if_pos hk5] at hk
      exact ⟨k, hk5, hk⟩
    · rw [if_neg hk5] at hk
      exact absurd hk (by simp)
  · rintro ⟨k, hk5, hck⟩
    have h2 : (cs.take 5)[k]? = some s := by
      rw [List.getElem?_take, if_pos hk5, hck]
    exact List.getElem?_mem h2

lemma matchedCount_take5_hit (cs js : List String)
    (h : ∃ s ∈ cs.take 5, js.contains s = true) :
    matchedCount cs js = 1 := by
  obtain ⟨s, hs, hjs⟩ := h
  obtain ⟨i, hi5, hget⟩ := (mem_take_five cs s).mp hs
  have hcond : ∀ k : ℕ, cs[k]? = some s →
      (cs[k]?.any fun t => js.contains t) = true := by
    intro k hk
    rw [hk]
    simpa using hjs
  unfold matchedCount
  split_ifs with h0 h1 h2 h3 h4
  · rfl
  · rfl
  · rfl
  · rfl
  · rfl
  · exfalso
    interval_cases i
    · exact h0 (hcond 0 hget)
    · exact h1 (hcond 1 hget)
    · exact h2 (hcond 2 hget)
    · exact h3 (hcond 3 hget)
    · exact h4 (hcond 4 hget)

lemma matchedCount_take5_miss (cs js : List String)
    (h : ∀ s ∈ cs.take 5, js.contains s = false) :
    matchedCount cs js = (cs.drop 5).countP fun s => js.contains s := by
  have hf : ∀ k, k < 5 → (cs[k]?.any fun t => js.contains t) = false := by
    intro k hk
    cases hck : cs[k]? with
    | none => rfl
    | some s =>
        simpa using h s ((mem_take_five cs s).mpr ⟨k, hk, hck⟩)
  unfold matchedCount
  rw [hf 0 (by norm_num), hf 1 (by norm_num), hf 2 (by norm_num),
    hf 3 (by norm_num), hf 4 (by norm_num)]
  simp

/-- C10: if any of the first five (lowercased) candidate skills appears in
the job's lowercased required-skills list, the if/elif chain yields
`matched_count = 1` and the candidate skills from position six onward are
never consulted (any tail gives the same count); skills beyond the fifth
are counted exactly when none of the first five matches. -/
theorem C10_first_five_short_circuit (cs js : List String) :
    ((∃ s ∈ cs.take 5, js.contains s = true) →
      matchedCount cs js = 1 ∧
      ∀ tl, matchedCount (cs.take 5 ++ tl) js = 1) ∧
    ((∀ s ∈ cs.take 5, js.contains s = false) →
      matchedCount cs js = (cs.drop 5).countP fun s => js.contains s) := by
  refine ⟨fun h => ⟨matchedCount_take5_hit cs js h, fun tl => ?_⟩,
    matchedCount_take5_miss cs js⟩
  apply matchedCount_take5_hit
  obtain ⟨s, hs, hjs⟩ := h
  refine ⟨s, ?_, hjs⟩
  rw [List.take_append_eq_append_take]
  apply List.mem_append_left
  simpa [List.take_take] using hs

lemma asStrings_eq (l : List PyVal) :
    ∀ ss, asStrings l = some ss → l = ss.map PyVal.vstr := by
  induction l with
  | nil =>
      intro ss h
      simp only [asStrings] at h
      injection h with h2
      rw [← h2]
      rfl
  | cons a rest ih =>
      intro ss h
      cases a with
      | vstr s =>
          simp only [asStrings] at h
          cases hr : asStrings rest with
          | none => rw [hr] at h; exact Option.noConfusion h
          | some ss' =>
              rw [hr] at h
              simp only [Option.map_some'] at h
              injection h with h2
              rw [← h2, List.map_cons]
              rw [ih ss' hr]
      | vint n => exact Option.noConfusion h
      | vlist l2 => exact Option.noConfusion h
      | vdict d => exact Option.noConfusion h
      | vnone => exact Option.noConfusion h

lemma mem_asStrings (l : List PyVal) (ss : List String)
    (h : asStrings l = some ss) (x : String) (hx : PyVal.vstr x ∈ l) :
    x ∈ ss := by
  rw [asStrings_eq l ss h] at hx
  obtain ⟨a, ha, hax⟩ := List.mem_map.mp hx
  injection hax with h2
  rw [← h2]
  exact ha

theorem C10_first_five_short_circuit_witness :
    matchedCount ["a", "go"] ["go"] = 1 ∧
    matchedCount (["a", "go"].take 5 ++ ["go", "go", "go"]) ["go"] = 1 :=
  ⟨((C10_first_five_short_circuit ["a", "go"] ["go"]).1
      ⟨"go", by decide, by decide⟩).1,
    ((C10_first_five_short_circuit ["a", "go"] ["go"]).1
      ⟨"go", by decide, by decide⟩).2 ["go", "go", "go"]⟩

lemma candErrors_fields (p : Payload) :
    (candErrors p).map Prod.fst = candInvalidFields p := by
  unfold candErrors candInvalidFields
  split_ifs <;> simp

lemma jobErrors_fields (p : Payload) :
    (jobErrors p).map Prod.fst = jobInvalidFields p := by
  unfold jobErrors jobInvalidFields
  split_ifs <;> simp

/-- C8: a job payload whose `skills_required` list contains a string that
is empty after trimming fails validation with `skills_required` among the
reported fields; a payload that validates returns the trimmed title,
trimmed location and trimmed required skills. -/
theorem C8_job_skills_validation (q : Payload) :
    (∀ l s, pget q "skills_required" = some (PyVal.vlist l) →
      PyVal.vstr s ∈ l → (pyStrip s).data.isEmpty = true →
      ∃ errs, validate_job_payload q = Except.error errs ∧
        "skills_required" ∈ errs.map Prod.fst) ∧
    (∀ t loc sk, validate_job_payload q = Except.ok (t, loc, sk) →
      ∃ t₀ l₀ ss, jobText? (pget q "title") = some t₀ ∧ t = pyStrip t₀ ∧
        jobText? (pget q "location") = some l₀ ∧ loc = pyStrip l₀ ∧
        jobSkills? (pget q "skills_required") = some ss ∧
        sk = ss.map pyStrip) := by
  constructor
  · intro l s hl hs hempty
    have hsk : jobSkills? (pget q "skills_required") = none := by
      rw [hl]
      simp only [jobSkills?]
      cases hstr : asStrings l with
      | none => rfl
      | some ss =>
          have hmem : s ∈ ss := mem_asStrings l ss hstr s hs
          cases hall : ss.all (fun t => !(pyStrip t).data.isEmpty) with
          | false => simp [hall]
          | true =>
              exfalso
              have := List.all_eq_true.mp hall s hmem
              rw [hempty] at this
              exact Bool.noConfusion this
    have hval : validate_job_payload q = Except.error (jobErrors q) := by
      unfold validate_job_payload
      rw [hsk]
      cases ht : jobText? (pget q "title") <;>
        cases hloc : jobText? (pget q "location") <;> rfl
    refine ⟨jobErrors q, hval, ?_⟩
    rw [jobErrors_fields]
    simp [jobInvalidFields, hsk]
  · intro t loc sk h
    unfold validate_job_payload at h
    cases ht : jobText? (pget q "title") <;>
      cases hloc : jobText? (pget q "location") <;>
      cases hsk : jobSkills? (pget q "skills_required") <;>
      rw [ht, hloc, hsk] at h
    case some.some.some t₀ l₀ ss =>
      injection h with h2
      simp only [Prod.mk.injEq] at h2
      obtain ⟨e1, e2, e3⟩ := h2
      exact ⟨t₀, l₀, ss, rfl, e1.symm, rfl, e2.symm, rfl, e3.symm⟩
    all_goals exact Except.noConfusion h

theorem C8_job_skills_validation_witness :
    ∃ errs,
      validate_job_payload
        [("title", PyVal.vstr "Eng"), ("location", PyVal.vstr "NYC"),
         ("skills_required", PyVal.vlist [PyVal.vstr "Go", PyVal.vstr "  "])] =
        Except.error errs ∧ "skills_required" ∈ errs.map Prod.fst :=
  (C8_job_skills_validation _).1 [PyVal.vstr "Go", PyVal.vstr "  "] "  " rfl
    (List.mem_cons_of_mem _ (List.mem_cons_self _ _)) rfl

/-- C4: each validator either fails with an error mapping naming exactly
the invalid fields of a single full pass (never only the first failure),
or returns the fully-normalized tuple in which every string field is the
trimmed form of the corresponding raw payload value — never a partial
success. -/
theorem C4_validators_all_or_nothing (p q : Payload) :
    (∀ errs, validate_candidate_payload p = Except.error errs →
      errs.map Prod.fst = candInvalidFields p ∧ candInvalidFields p ≠ []) ∧
    (∀ n e sk y, validate_candidate_payload p = Except.ok (n, e, sk, y) →
      candInvalidFields p = [] ∧
      ∃ n₀ e₀ sk₀, candName? (pget p "name") = some n₀ ∧ n = pyStrip n₀ ∧
        candEmail? (pget p "email") = some e₀ ∧ e = pyStrip e₀ ∧
        candSkills? (pget p "skills") = some sk₀ ∧ sk = sk₀.map pyStrip ∧
        candYears? (pget p "years_experience") = some y) ∧
    (∀ errs, validate_job_payload q = Except.error errs →
      errs.map Prod.fst = jobInvalidFields q ∧ jobInvalidFields q ≠ []) ∧
    (∀ t loc sk, validate_job_payload q = Except.ok (t, loc, sk) →
      jobInvalidFields q = [] ∧
      ∃ t₀ l₀ ss, jobText? (pget q "title") = some t₀ ∧ t = pyStrip t₀ ∧
        jobText? (pget q "location") = some l₀ ∧ loc = pyStrip l₀ ∧
        jobSkills? (pget q "skills_required") = some ss ∧
        sk = ss.map pyStrip) := by
  refine ⟨?_, ?_, ?_, ?_⟩
  · intro errs h
    unfold validate_candidate_payload at h
    cases hn : candName? (pget p "name") <;>
      cases he : candEmail? (pget p "email") <;>
      cases hsk : candSkills? (pget p "skills") <;>
      cases hy : candYears? (pget p "years_experience") <;>
      rw [hn, he, hsk, hy] at h
    all_goals
      first
      | exact Except.noConfusion h
      | (injection h with h2
         subst h2
         exact ⟨candErrors_fields p,
           by simp [candInvalidFields, hn, he, hsk, hy]⟩)
  · intro n e sk y h
    unfold validate_candidate_payload at h
    cases hn : candName? (pget p "name") <;>
      cases he : candEmail? (pget p "email") <;>
      cases hsk : candSkills? (pget p "skills") <;>
      cases hy : candYears? (pget p "years_experience") <;>
      rw [hn, he, hsk, hy] at h
    case some.some.some.some n₀ e₀ sk₀ y₀ =>
      injection h with h2
      simp only [Prod.mk.injEq] at h2
      obtain ⟨e1, e2, e3, e4⟩ := h2
      refine ⟨by simp [candInvalidFields, hn, he, hsk, hy],
        n₀, e₀, sk₀, rfl, e1.symm, rfl, e2.symm, rfl, e3.symm, by rw [e4]⟩
    all_goals exact Except.noConfusion h
  · intro errs h
    unfold validate_job_payload at h
    cases ht : jobText? (pget q "title") <;>
      cases hloc : jobText? (pget q "location") <;>
      cases hsk : jobSkills? (pget q "skills_required") <;>
      rw [ht, hloc, hsk] at h
    all_goals
      first
      | exact Except.noConfusion h
      | (injection h with h2
         subst h2
         exact ⟨jobErrors_fields q,
           by simp [jobInvalidFields, ht, hloc, hsk]⟩)
  · intro t loc sk h
    unfold validate_job_payload at h
    cases ht : jobText? (pget q "title") <;>
      cases hloc : jobText? (pget q "location") <;>
      cases hsk : jobSkills? (pget q "skills_required") <;>
      rw [ht, hloc, hsk] at h
    case some.some.some t₀ l₀ ss =>
      injection h with h2
      simp only [Prod.mk.injEq] at h2
      obtain ⟨e1, e2, e3⟩ := h2
      exact ⟨by simp [jobInvalidFields, ht, hloc, hsk],
        t₀, l₀, ss, rfl, e1.symm, rfl, e2.symm, rfl, e3.symm⟩
    all_goals exact Except.noConfusion h

theorem C4_validators_all_or_nothing_witness :
    ([("name", "name must be a non-empty string"),
      ("skills", "skills must be a list of strings"),
      ("years_experience",
        "years_experience must be a non-negative integer")].map Prod.fst =
      candInvalidFields [("email", PyVal.vstr "a@b.com")] ∧
    candInvalidFields [("email", PyVal.vstr "a@b.com")] ≠ []) :=
  (C4_validators_all_or_nothing [("email", PyVal.vstr "a@b.com")] []).1 _ rfl
